import Mathlib

set_option autoImplicit false

/- Verification of the patchwire per-connection protocol core (src/lib/client.js):
   packet framing, digest splitting, bounded-search integrity validation, inbound
   dispatch, outbound direct and batched sending, and teardown.

   JavaScript strings are modelled as lists of characters (`Str`).  JavaScript
   values are modelled by `JsVal`; an absent property is `JsVal.undefined`.  The
   node `crypto` SHA-1 primitive is external to the repository and is modelled
   as an explicit digest-function argument `hashFn : Str -> Str` threaded
   through the connection operations; everything the repository computes around
   it (the shared secret, the candidate messages, the 100-wide forward search)
   is embedded literally.  A thrown JavaScript exception is modelled by
   `Outcome.thrown` carrying the name of the exception. -/

abbrev Str := List Char

/- JavaScript values restricted to the JSON-representable fragment the protocol
   exchanges, plus `undefined`. -/
inductive JsVal where
  | undefined
  | null
  | bool (b : Bool)
  | num (n : Int)
  | str (s : Str)
  | arr (elems : List JsVal)
  | obj (fields : List (String × JsVal))

/- JavaScript truthiness of a value (`if (v)`). -/
def truthy : JsVal → Bool
  | .undefined => false
  | .null => false
  | .bool b => b
  | .num n => n != 0
  | .str s => !s.isEmpty
  | .arr _ => true
  | .obj _ => true

/- Property assignment on a plain-object field list: an existing key keeps its
   position and gets the new value, a new key is appended (JS insertion order). -/
def jsSet : List (String × JsVal) → String → JsVal → List (String × JsVal)
  | [], k, v => [(k, v)]
  | (k', v') :: rest, k, v =>
    if k' == k then (k, v) :: rest else (k', v') :: jsSet rest k v

/- Property read on a field list; an absent key reads as `undefined`. -/
def jsGet (store : List (String × JsVal)) (k : String) : JsVal :=
  match List.lookup k store with
  | some v => v
  | none => .undefined

/- Property read `v.k` (reading a property of a non-object yields `undefined`;
   reading a property of `null`/`undefined`, a TypeError in JS, is outside the
   fragment the protocol exercises). -/
def jsGetField (v : JsVal) (k : String) : JsVal :=
  match v with
  | .obj fields => jsGet fields k
  | _ => .undefined

/- Property write `v.k = x` (writes to non-objects are outside the fragment). -/
def jsSetField (v : JsVal) (k : String) (x : JsVal) : JsVal :=
  match v with
  | .obj fields => .obj (jsSet fields k x)
  | other => other

def hexDigitChar (n : Nat) : Char :=
  if n < 10 then Char.ofNat (48 + n) else Char.ofNat (87 + n)

/- JSON.stringify escaping for one character inside a string literal. -/
def escapeJsonChar (c : Char) : Str :=
  if c == '"' then ['\\', '"']
  else if c == '\\' then ['\\', '\\']
  else if c == '\n' then ['\\', 'n']
  else if c == '\r' then ['\\', 'r']
  else if c == '\t' then ['\\', 't']
  else if c == '\x08' then ['\\', 'b']
  else if c == '\x0c' then ['\\', 'f']
  else if c.toNat < 32 then
    ['\\', 'u', '0', '0', hexDigitChar (c.toNat / 16), hexDigitChar (c.toNat % 16)]
  else [c]

def quoteJsonString (s : Str) : Str :=
  '"' :: s.foldr (fun c acc => escapeJsonChar c ++ acc) ['"']

/- Model of the platform `JSON.stringify` on the fragment the protocol sends:
   JSON values with integer numerals.  (`JSON.stringify` omits object members
   whose value is `undefined`; the protocol never builds such members, and here
   `undefined` serializes like `null`.) -/
mutual
def jsonStringify : JsVal → Str
  | .undefined => "null".toList
  | .null => "null".toList
  | .bool true => "true".toList
  | .bool false => "false".toList
  | .num n => (toString n).toList
  | .str s => quoteJsonString s
  | .arr xs => '[' :: (jsonStringifyElems xs ++ [']'])
  | .obj fs => '\x7b' :: (jsonStringifyFields fs ++ ['\x7d'])

def jsonStringifyElems : List JsVal → Str
  | [] => []
  | [x] => jsonStringify x
  | x :: y :: xs => jsonStringify x ++ ',' :: jsonStringifyElems (y :: xs)

def jsonStringifyFields : List (String × JsVal) → Str
  | [] => []
  | [(k, v)] => quoteJsonString k.toList ++ ':' :: jsonStringify v
  | (k, v) :: f :: fs =>
    (quoteJsonString k.toList ++ ':' :: jsonStringify v) ++ ',' :: jsonStringifyFields (f :: fs)
end

def isJsonWs (c : Char) : Bool :=
  c == ' ' || c == '\t' || c == '\n' || c == '\r'

def skipWs (s : Str) : Str := s.dropWhile isJsonWs

/- JSON string-literal body parser: consumes up to the closing quote, decoding
   the single-character escapes (`\uXXXX` escapes are outside the modelled
   fragment). -/
def parseStringBody : Str → Str → Option (Str × Str)
  | _, [] => none
  | acc, '"' :: rest => some (acc.reverse, rest)
  | acc, '\\' :: e :: rest =>
    if e == '"' then parseStringBody ('"' :: acc) rest
    else if e == '\\' then parseStringBody ('\\' :: acc) rest
    else if e == '/' then parseStringBody ('/' :: acc) rest
    else if e == 'n' then parseStringBody ('\n' :: acc) rest
    else if e == 't' then parseStringBody ('\t' :: acc) rest
    else if e == 'r' then parseStringBody ('\r' :: acc) rest
    else if e == 'b' then parseStringBody ('\x08' :: acc) rest
    else if e == 'f' then parseStringBody ('\x0c' :: acc) rest
    else none
  | acc, c :: rest =>
    if c.toNat < 32 then none else parseStringBody (c :: acc) rest

def parseNumber (s : Str) : Option (JsVal × Str) :=
  let (neg, s1) := match s with
    | '-' :: r => (true, r)
    | _ => (false, s)
  let (ds, rest) := s1.span (·.isDigit)
  if ds.isEmpty then none
  else
    let n : Nat := ds.foldl (fun a c => a * 10 + (c.toNat - 48)) 0
    some (.num (if neg then -(n : Int) else (n : Int)), rest)

/- Model of the platform `JSON.parse` on the fragment the protocol receives:
   JSON values with integer numerals and without `\uXXXX` string escapes
   (fractional numbers are floating point and outside the embedding).  The
   fuel argument bounds recursion depth and is in excess of any input's needs. -/
mutual
def parseJsonValue : Nat → Str → Option (JsVal × Str)
  | 0, _ => none
  | fuel + 1, s =>
    match skipWs s with
    | 'n' :: 'u' :: 'l' :: 'l' :: rest => some (.null, rest)
    | 't' :: 'r' :: 'u' :: 'e' :: rest => some (.bool true, rest)
    | 'f' :: 'a' :: 'l' :: 's' :: 'e' :: rest => some (.bool false, rest)
    | '"' :: rest => (parseStringBody [] rest).map fun p => (.str p.1, p.2)
    | '[' :: rest =>
      (match skipWs rest with
       | ']' :: r => some (.arr [], r)
       | s' => (parseJsonElems fuel s').map fun p => (.arr p.1, p.2))
    | '\x7b' :: rest =>
      (match skipWs rest with
       | '\x7d' :: r => some (.obj [], r)
       | s' => (parseJsonMembers fuel s').map fun p => (.obj p.1, p.2))
    | s' => parseNumber s'

def parseJsonElems : Nat → Str → Option (List JsVal × Str)
  | 0, _ => none
  | fuel + 1, s => do
    let (v, r) ← parseJsonValue fuel s
    match skipWs r with
    | ',' :: r2 => do
      let (xs, r3) ← parseJsonElems fuel r2
      pure (v :: xs, r3)
    | ']' :: r2 => pure ([v], r2)
    | _ => none

def parseJsonMembers : Nat → Str → Option (List (String × JsVal) × Str)
  | 0, _ => none
  | fuel + 1, s =>
    match skipWs s with
    | '"' :: rest => do
      let (k, r) ← parseStringBody [] rest
      match skipWs r with
      | ':' :: r2 => do
        let (v, r3) ← parseJsonValue fuel r2
        match skipWs r3 with
        | ',' :: r4 => do
          let (fs, r5) ← parseJsonMembers fuel r4
          pure ((String.mk k, v) :: fs, r5)
        | '\x7d' :: r4 => pure ([(String.mk k, v)], r4)
        | _ => none
      | _ => none
    | _ => none
end

def jsonParse (s : Str) : Option JsVal :=
  match parseJsonValue (s.length + 1) s with
  | some (v, rest) => if skipWs rest = [] then some v else none
  | none => none

/- The WhiteSpace and LineTerminator set of `String.prototype.trim` (space,
   tab, line feed, carriage return, vertical tab, form feed, NBSP, the Unicode
   space separators, the line and paragraph separators, and the BOM). -/
def isJsWhitespace (c : Char) : Bool :=
  c == ' ' || c == '\t' || c == '\n' || c == '\r' || c == '\x0b' || c == '\x0c' ||
  c.toNat == 0xa0 || c.toNat == 0x1680 ||
  (0x2000 <= c.toNat && c.toNat <= 0x200a) ||
  c.toNat == 0x2028 || c.toNat == 0x2029 || c.toNat == 0x202f ||
  c.toNat == 0x205f || c.toNat == 0x3000 || c.toNat == 0xfeff

/- Model of `String.prototype.trim`. -/
def jsTrim (s : Str) : Str :=
  ((s.dropWhile isJsWhitespace).reverse.dropWhile isJsWhitespace).reverse

/- Index of the first occurrence of `pat` in a string, as in
   `String.prototype.indexOf` with a string argument (the empty pattern matches
   at index 0). -/
def firstOccurrenceAux (pat : Str) : Str → Option Nat
  | [] => if pat.isEmpty then some 0 else none
  | c :: rest =>
    if pat.isPrefixOf (c :: rest) then some 0
    else (firstOccurrenceAux pat rest).map (· + 1)

/- Model of `s.replace(pat, '')` with a string pattern: remove the first
   occurrence of `pat`, if any. -/
def jsReplaceFirst (s pat : Str) : Str :=
  match firstOccurrenceAux pat s with
  | some i => s.take i ++ s.drop (i + pat.length)
  | none => s

/- Whether `pat` occurs as a contiguous substring of `s`. -/
def containsSub (s pat : Str) : Bool :=
  (firstOccurrenceAux pat s).isSome

/- Index of the first occurrence of character `c`, as in
   `String.prototype.indexOf` with a one-character argument (`none` models the
   return value -1). -/
def jsIndexOfChar (c : Char) : Str → Option Nat
  | [] => none
  | x :: rest => if x == c then some 0 else (jsIndexOfChar c rest).map (· + 1)

/- Result of a JavaScript call that can throw: `thrown` carries the name of
   the exception. -/
inductive Outcome (α : Type) where
  | ok (v : α)
  | thrown (e : String)

/- The mutable per-connection state of `Client` (src/lib/client.js).  `data` is
   the ad-hoc key/value store (`this.data`), `packetCounter` the sequence
   counter, `tickModeQueue` the outbound batching queue.  The transport is
   observed through `writes` (payloads passed to `socket.write`, in order),
   `socketDestroyCount` (calls to `this.socket.destroy()`), and `dispatched`
   (objects delivered to the registered data handlers, in order).  `clientId`
   and `created` are immutable identification fields with no protocol role and
   are omitted. -/
structure ClientState where
  data : List (String × JsVal)
  tickMode : Bool
  tickModeQueue : List JsVal
  packetCounter : Nat
  dispatched : List JsVal
  writes : List Str
  socketDestroyCount : Nat

def TERMINATING_CHARACTER : Char := '\x00'

def INC_PACKET_SEARCHBOUND : Nat := 100

/- The literal `key` of validateClientCommandIntegrity: the shared secret
   appended between payload and candidate sequence number before hashing. -/
def DIGEST_KEY : Str :=
  "5FR%7Yt!7DgB!69rDXZU8pL7!&iHqDpq@9tX@Zir43JsfymWZg2rTzQ02%pVtgK7LO7n0Znh".toList

/- The placeholder substituted for an empty or whitespace-only packet.  Note
   the space after the colon, exactly as in the source. -/
def missingSocketDataPlaceholder : Str :=
  "\x7b\"command\": \"missingSocketDataString\"\x7d".toList

/- `this.get(key)`. -/
def clientGet (st : ClientState) (k : String) : JsVal := jsGet st.data k

/- `this.set(key, value)`. -/
def clientSet (st : ClientState) (k : String) (v : JsVal) : ClientState :=
  { st with data := jsSet st.data k v }

/- `destroy()`: if the `destroyed` flag of the store is not yet truthy, set it
   and then evaluate `client.socket.destroy()`.  The identifier `client` is not
   declared anywhere in the module (nor in the repository), so in this
   strict-mode module that statement throws a ReferenceError: the destroyed
   flag is set, but `this.socket.destroy()` is never reached on any path,
   which is why no operation below ever increments `socketDestroyCount`. -/
def destroy (st : ClientState) : ClientState × Outcome JsVal :=
  if truthy (clientGet st "destroyed") then (st, .ok .undefined)
  else
    (clientSet st "destroyed" (.bool true), .thrown "ReferenceError")

/- Decimal rendering of the candidate sequence number (`checkPacket.toString()`). -/
def natDecimal (n : Nat) : Str := (Nat.repr n).toList

/- The `for (let i=0; i<INC_PACKET_SEARCHBOUND; ++i) ... break` search: try
   `pred` at consecutive indices starting at `i`, for `fuel` attempts, and
   return the first index at which it holds. -/
def searchFrom (pred : Nat → Bool) : Nat → Nat → Option Nat
  | _, 0 => none
  | i, fuel + 1 => if pred i then some i else searchFrom pred (i + 1) fuel

structure SplitData where
  hash : Str
  data : Str

/- `Client.splitCommandAndHash`: the trailing 40 characters are the digest
   (`data.slice(-hashLength)`), everything before them is the payload
   (`data.slice(0, -hashLength)`), with the JS clamping behaviour on strings
   shorter than 40 characters. -/
def splitCommandAndHash (data : Str) : SplitData :=
  { hash := data.drop (data.length - 40)
    data := data.take (data.length - 40) }

/- One iteration of the validation loop at candidate `n`: hash the UTF-8 bytes
   of `data.data + key + checkPacket.toString()` and compare with the packet's
   trailing digest (`serverHash == data.hash`). -/
def candidateDigestMatches (hashFn : Str → Str) (d : SplitData) (n : Nat) : Bool :=
  hashFn (d.data ++ DIGEST_KEY ++ natDecimal n) == d.hash

/- `validateClientCommandIntegrity`: probe candidates `packetCounter + i` for
   `i` from 0 to 99 in increasing order; on the first digest match set
   `packetCounter` to the accepted candidate and return true; if the window is
   exhausted, call `this.destroy()` (whose ReferenceError propagates) and
   otherwise return false. -/
def validateClientCommandIntegrity (hashFn : Str → Str) (st : ClientState)
    (d : SplitData) : ClientState × Outcome Bool :=
  match searchFrom (fun i => candidateDigestMatches hashFn d (st.packetCounter + i)) 0
      INC_PACKET_SEARCHBOUND with
  | some i => ({ st with packetCounter := st.packetCounter + i }, .ok true)
  | none =>
    match destroy st with
    | (st', .ok _) => (st', .ok false)
    | (st', .thrown e) => (st', .thrown e)

/- `directSend(command)`: refuse when destroyed, else write
   `header + JSON.stringify(command).replace(header, '')` to the socket.
   `String.prototype.replace` with a string pattern replaces only the first
   occurrence. -/
def directSend (header : Str) (st : ClientState) (command : JsVal) :
    ClientState × Bool :=
  if truthy (clientGet st "destroyed") then (st, false)
  else
    ({ st with writes :=
        st.writes ++ [header ++ jsReplaceFirst (jsonStringify command) header] },
     true)

/- `send(command, data)`: `dataArg = none` models the one-argument call
   (`typeof data === 'undefined'`, so `data = command`); otherwise the command
   name is attached under the `command` field.  In tick mode a batch object is
   flattened into the queue and any other object is appended; outside tick mode
   the object is sent directly.  `send` itself has no return statement, so its
   JS return value is always `undefined`. -/
def send (header : Str) (st : ClientState) (command : JsVal)
    (dataArg : Option JsVal) : ClientState × JsVal :=
  let data := match dataArg with
    | none => command
    | some d => jsSetField d "command" command
  if st.tickMode then
    if truthy (jsGetField data "batch") then
      match jsGetField data "commands" with
      | .arr cs => ({ st with tickModeQueue := st.tickModeQueue ++ cs }, .undefined)
      | _ => (st, .undefined)
    else ({ st with tickModeQueue := st.tickModeQueue ++ [data] }, .undefined)
  else ((directSend header st data).1, .undefined)

/- `prepareCommand`. -/
def prepareCommand (command : JsVal) : Str := jsonStringify command

/- `batchSend(commandList)`. -/
def batchSend (header : Str) (st : ClientState) (commandList : List JsVal) :
    ClientState × JsVal :=
  send header st (.obj [("batch", .bool true), ("commands", .arr commandList)]) none

/- `tick()`: a usage error outside tick mode; with a non-empty queue, directly
   send the single batch object and then clear the queue (the queue is cleared
   even if `directSend` refused because the connection is destroyed). -/
def tick (header : Str) (st : ClientState) : ClientState × Outcome JsVal :=
  if !st.tickMode then (st, .thrown "Error")
  else if st.tickModeQueue.length != 0 then
    let command : JsVal := .obj [("batch", .bool true), ("commands", .arr st.tickModeQueue)]
    ({ (directSend header st command).1 with tickModeQueue := [] }, .ok .undefined)
  else (st, .ok .undefined)

/- The framing stage of `getObjectFromRaw`: decode the buffer as UTF-8 text,
   cut at the first NUL if present, and substitute the placeholder when the
   result is empty or whitespace-only
   (`trimmedData == null || trimmedData.trim() == ''`). -/
def frameRaw (raw : Str) : Str :=
  let trimmedData := match jsIndexOfChar TERMINATING_CHARACTER raw with
    | some terminatingIndex => raw.take terminatingIndex
    | none => raw
  if jsTrim trimmedData = [] then missingSocketDataPlaceholder else trimmedData

/- `getObjectFromRaw(data)`: frame, split, validate; on successful validation
   parse the payload as JSON, returning the JS value `false` when parsing
   throws; on failed validation return the JS value `false`.  A ReferenceError
   thrown inside validation propagates. -/
def getObjectFromRaw (hashFn : Str → Str) (st : ClientState) (raw : Str) :
    ClientState × Outcome JsVal :=
  let dataSplit := splitCommandAndHash (frameRaw raw)
  match validateClientCommandIntegrity hashFn st dataSplit with
  | (st', .ok true) =>
    match jsonParse dataSplit.data with
    | some objectFromData => (st', .ok objectFromData)
    | none => (st', .ok (.bool false))
  | (st', .ok false) => (st', .ok (.bool false))
  | (st', .thrown e) => (st', .thrown e)

/- The `socket.on('data', ...)` handler of the constructor: toss the packet if
   `getObjectFromRaw` returned the JS value `false` (strict equality
   `dataAsObject === false`), else increment `packetCounter` and dispatch the
   object to every registered data handler in order. -/
def onSocketData (hashFn : Str → Str) (st : ClientState) (raw : Str) :
    ClientState × Outcome JsVal :=
  match getObjectFromRaw hashFn st raw with
  | (st', .thrown e) => (st', .thrown e)
  | (st', .ok dataAsObject) =>
    match dataAsObject with
    | .bool false => (st', .ok .undefined)
    | v =>
      ({ st' with
          packetCounter := st'.packetCounter + 1
          dispatched := st'.dispatched ++ [v] },
       .ok .undefined)

/- The field initialisation of the `Client` constructor. -/
def freshClientFields : ClientState :=
  { data := [], tickMode := false, tickModeQueue := [], packetCounter := 0,
    dispatched := [], writes := [], socketDestroyCount := 0 }

/- The constructor: initialise the fields, then `send({command: 'connected'})`
   (tick mode is off, so this is a direct write of the greeting frame). -/
def initialClient (header : Str) : ClientState :=
  (send header freshClientFields (.obj [("command", .str "connected".toList)]) none).1

/- Test fixtures: a concrete stand-in digest function used only to instantiate
   the abstract digest argument in concrete witnesses and counterexamples.  It
   renders a positional character code of the message as 40 lowercase hex
   digits; on the candidate messages of one validation window (which differ in
   their trailing decimal digits) it is collision-free, which each concrete
   use checks by evaluation. -/
def strSeed (s : Str) : Nat := s.foldl (fun a c => a * 1024 + c.toNat + 1) 7

def hexChars40 (n : Nat) : Str :=
  (List.range 40).map (fun k => hexDigitChar (n / 16 ^ (39 - k) % 16))

def testHash (s : Str) : Str := hexChars40 (strSeed s % 16 ^ 40)

/- A connection at sequence counter `c`, not destroyed, with empty queue and
   no traffic yet. -/
def clientAt (c : Nat) : ClientState :=
  { data := [], tickMode := false, tickModeQueue := [], packetCounter := c,
    dispatched := [], writes := [], socketDestroyCount := 0 }

/- A destroyed connection. -/
def destroyedClient : ClientState :=
  { clientAt 0 with data := [("destroyed", .bool true)] }

/- A connection in tick mode with an empty queue. -/
def tickClient : ClientState :=
  { clientAt 0 with tickMode := true }

/- Iterated one-argument `send` calls, in call order (the shape of the tick-mode
   batching scenario). -/
def sendAll (header : Str) (st : ClientState) (cmds : List JsVal) : ClientState :=
  cmds.foldl (fun s c => (send header s c none).1) st

/- Concrete inputs used by witnesses and counterexamples. -/
def pingPayload : Str := "\x7b\"command\":\"ping\"\x7d".toList

def falsePayload : Str := "false".toList

def falseFrame : Str :=
  falsePayload ++ testHash (falsePayload ++ DIGEST_KEY ++ natDecimal 0)

def xyHeader : Str := "XY".toList

def xyCommand : JsVal := .obj [("command", .str "XYXY".toList)]

set_option maxRecDepth 100000

theorem searchFrom_found (pred : Nat → Bool) :
    ∀ (fuel i j : Nat), i ≤ j → j < i + fuel → pred j = true →
      (∀ k, i ≤ k → k < j → pred k = false) →
      searchFrom pred i fuel = some j := by
  intro fuel
  induction fuel with
  | zero => intro i j h1 h2 _ _; omega
  | succ n ih =>
    intro i j h1 h2 hj hmin
    unfold searchFrom
    by_cases hi : pred i = true
    · have hij : i = j := by
        by_contra hne
        have hlt : i < j := lt_of_le_of_ne h1 hne
        have hfalse := hmin i le_rfl hlt
        rw [hi] at hfalse
        exact Bool.noConfusion hfalse
      subst hij
      simp [hi]
    · have hij : i < j := by
        rcases eq_or_lt_of_le h1 with h | h
        · exact absurd (h ▸ hj) hi
        · exact h
      simp only [hi, if_false]
      exact ih (i + 1) j hij (by omega) hj (fun k hk1 hk2 => hmin k (by omega) hk2)

theorem searchFrom_exhausted (pred : Nat → Bool) :
    ∀ (fuel i : Nat), (∀ k, i ≤ k → k < i + fuel → pred k = false) →
      searchFrom pred i fuel = none := by
  intro fuel
  induction fuel with
  | zero => intro i _; rfl
  | succ n ih =>
    intro i h
    unfold searchFrom
    have h0 : pred i = false := h i le_rfl (by omega)
    simp only [h0, Bool.false_eq_true, if_false]
    exact ih (i + 1) (fun k hk1 hk2 => h k (by omega) (by omega))

theorem splitCommandAndHash_append (p d : Str) (hd : d.length = 40) :
    splitCommandAndHash (p ++ d) = ⟨d, p⟩ := by
  have hlen : (p ++ d).length - 40 = p.length := by
    simp [List.length_append, hd]
  unfold splitCommandAndHash
  rw [hlen]
  congr 1
  · rw [List.drop_left]
  · rw [List.take_left]

/- Core acceptance lemma for the validation loop: a frame carrying the digest
   of candidate `s` inside the search window, with no digest collision at an
   earlier candidate of the window, is accepted with the counter set to `s`. -/
theorem validate_accepts (hashFn : Str → Str) (st : ClientState) (p : Str) (s : Nat)
    (hlen : (hashFn (p ++ DIGEST_KEY ++ natDecimal s)).length = 40)
    (hle : st.packetCounter ≤ s)
    (hlt : s < st.packetCounter + INC_PACKET_SEARCHBOUND)
    (hnc : ∀ k, st.packetCounter ≤ k → k < s →
      hashFn (p ++ DIGEST_KEY ++ natDecimal k) ≠ hashFn (p ++ DIGEST_KEY ++ natDecimal s)) :
    validateClientCommandIntegrity hashFn st
      (splitCommandAndHash (p ++ hashFn (p ++ DIGEST_KEY ++ natDecimal s)))
      = ({ st with packetCounter := s }, .ok true) := by
  rw [splitCommandAndHash_append _ _ hlen]
  unfold validateClientCommandIntegrity
  have hsearch :
      searchFrom
        (fun i => candidateDigestMatches hashFn
          ⟨hashFn (p ++ DIGEST_KEY ++ natDecimal s), p⟩ (st.packetCounter + i))
        0 INC_PACKET_SEARCHBOUND = some (s - st.packetCounter) := by
    apply searchFrom_found
    · omega
    · unfold INC_PACKET_SEARCHBOUND
      unfold INC_PACKET_SEARCHBOUND at hlt
      omega
    · show candidateDigestMatches hashFn _ (st.packetCounter + (s - st.packetCounter)) = true
      unfold candidateDigestMatches
      have hcs : st.packetCounter + (s - st.packetCounter) = s := by omega
      rw [hcs]
      exact beq_self_eq_true _
    · intro k _ hk2
      show candidateDigestMatches hashFn _ (st.packetCounter + k) = false
      unfold candidateDigestMatches
      exact beq_eq_false_iff_ne.mpr
        (hnc (st.packetCounter + k) (by omega) (by omega))
  rw [hsearch]
  have hcs : st.packetCounter + (s - st.packetCounter) = s := by omega
  simp only [hcs]

/-- C1: for every payload string `p`, counter `c` and sequence number `s` with
`c ≤ s < c + 100`, the frame built as `p` followed by the 40-character digest
of `(p, secret, decimal s)` validates successfully against a connection whose
sequence counter is `c`; the candidates are tried in increasing order starting
at `c` (captured by the hypothesis that no earlier candidate of the window has
the same digest — a collision-freeness property of the SHA-1 primitive, which
is modelled abstractly as `hashFn`), the first matching candidate is accepted,
and immediately after validation the connection's counter equals `s`. -/
theorem claim1_frame_in_window_validates (hashFn : Str → Str) (st : ClientState)
    (p : Str) (s : Nat)
    (hlen : (hashFn (p ++ DIGEST_KEY ++ natDecimal s)).length = 40)
    (hle : st.packetCounter ≤ s)
    (hlt : s < st.packetCounter + INC_PACKET_SEARCHBOUND)
    (hnc : ∀ k, st.packetCounter ≤ k → k < s →
      hashFn (p ++ DIGEST_KEY ++ natDecimal k) ≠ hashFn (p ++ DIGEST_KEY ++ natDecimal s)) :
    validateClientCommandIntegrity hashFn st
      (splitCommandAndHash (p ++ hashFn (p ++ DIGEST_KEY ++ natDecimal s)))
      = ({ st with packetCounter := s }, .ok true) :=
  validate_accepts hashFn st p s hlen hle hlt hnc

/-- Witness for C1: a concrete frame for payload `{"command":"ping"}` and
sequence number 1 against a fresh connection at counter 0 is accepted at
candidate 1 after candidate 0 mismatches, and the counter becomes 1. -/
theorem claim1_frame_in_window_validates_witness :
    validateClientCommandIntegrity testHash (clientAt 0)
      (splitCommandAndHash (pingPayload ++ testHash (pingPayload ++ DIGEST_KEY ++ natDecimal 1)))
      = ({ clientAt 0 with packetCounter := 1 }, .ok true) :=
  claim1_frame_in_window_validates testHash (clientAt 0) pingPayload 1
    (by decide)
    (by decide)
    (by decide)
    (by
      intro k _ hk
      have hk0 : k = 0 := by omega
      subst hk0
      decide)

/-- C3: at a concrete frame whose digest is computed for sequence number 100
against a connection whose counter is 0 (just past the search window), every
candidate of the window mismatches and validation fails; the failure path sets
`store.destroyed`, but the transport is NOT closed: `destroy()` evaluates
`client.socket.destroy()` on the undeclared identifier `client` and throws a
ReferenceError before any socket call, so `socketDestroyCount` stays 0 and no
candidate for the claimed "transport is closed" behaviour exists. -/
theorem claim3_out_of_window_fails_but_transport_never_closed :
    validateClientCommandIntegrity testHash (clientAt 0)
      (splitCommandAndHash (pingPayload ++ testHash (pingPayload ++ DIGEST_KEY ++ natDecimal 100)))
      = ({ clientAt 0 with data := [("destroyed", .bool true)] }, .thrown "ReferenceError")
    ∧ truthy (clientGet { clientAt 0 with data := [("destroyed", .bool true)] } "destroyed") = true
    ∧ ({ clientAt 0 with data := [("destroyed", .bool true)] } : ClientState).socketDestroyCount = 0 :=
  ⟨rfl, rfl, rfl⟩

/-- C4: calling `destroy()` twice on a fresh connection: the first call sets
`store.destroyed` and then throws a ReferenceError on the undeclared global
`client` without closing the connection's own transport; the second call is a
no-op.  The transport is closed zero times, not exactly once as claimed. -/
theorem claim4_destroy_twice_closes_transport_zero_times :
    destroy (clientAt 0)
      = ({ clientAt 0 with data := [("destroyed", .bool true)] }, .thrown "ReferenceError")
    ∧ destroy { clientAt 0 with data := [("destroyed", .bool true)] }
      = ({ clientAt 0 with data := [("destroyed", .bool true)] }, .ok .undefined)
    ∧ ({ clientAt 0 with data := [("destroyed", .bool true)] } : ClientState).socketDestroyCount = 0 :=
  ⟨rfl, rfl, rfl⟩

theorem jsIndexOfChar_eq_none (c : Char) :
    ∀ (l : Str), c ∉ l → jsIndexOfChar c l = none := by
  intro l
  induction l with
  | nil => intro _; rfl
  | cons x rest ih =>
    intro h
    unfold jsIndexOfChar
    have hx : (x == c) = false := by
      apply beq_eq_false_iff_ne.mpr
      intro hxc
      exact h (hxc ▸ List.mem_cons_self x rest)
    simp only [hx, Bool.false_eq_true, if_false]
    rw [ih (fun hm => h (List.mem_cons_of_mem x hm))]
    rfl

theorem jsIndexOfChar_append (c : Char) :
    ∀ (pre post : Str), c ∉ pre →
      jsIndexOfChar c (pre ++ c :: post) = some pre.length := by
  intro pre
  induction pre with
  | nil =>
    intro post _
    unfold jsIndexOfChar
    simp
  | cons x rest ih =>
    intro post h
    unfold jsIndexOfChar
    have hx : (x == c) = false := by
      apply beq_eq_false_iff_ne.mpr
      intro hxc
      exact h (hxc ▸ List.mem_cons_self x rest)
    simp only [List.cons_append, hx, Bool.false_eq_true, if_false]
    rw [ih post (fun hm => h (List.mem_cons_of_mem x hm))]
    rfl

/- The framer is the identity on raw text without a NUL that is not
   whitespace-only. -/
theorem frameRaw_id (raw : Str) (hnn : TERMINATING_CHARACTER ∉ raw)
    (htr : jsTrim raw ≠ []) : frameRaw raw = raw := by
  unfold frameRaw
  rw [jsIndexOfChar_eq_none _ raw hnn]
  simp only [htr, if_false]

/- The inbound path on a frame accepted at candidate `s`, as a function of the
   JSON parse of its payload. -/
theorem onSocketData_accepted (hashFn : Str → Str) (st : ClientState) (p : Str) (s : Nat)
    (hlen : (hashFn (p ++ DIGEST_KEY ++ natDecimal s)).length = 40)
    (hle : st.packetCounter ≤ s)
    (hlt : s < st.packetCounter + INC_PACKET_SEARCHBOUND)
    (hnc : ∀ k, st.packetCounter ≤ k → k < s →
      hashFn (p ++ DIGEST_KEY ++ natDecimal k) ≠ hashFn (p ++ DIGEST_KEY ++ natDecimal s))
    (hnonul : TERMINATING_CHARACTER ∉ p ++ hashFn (p ++ DIGEST_KEY ++ natDecimal s))
    (htrim : jsTrim (p ++ hashFn (p ++ DIGEST_KEY ++ natDecimal s)) ≠ []) :
    (∀ v, jsonParse p = some v → v ≠ .bool false →
      onSocketData hashFn st (p ++ hashFn (p ++ DIGEST_KEY ++ natDecimal s))
        = ({ st with packetCounter := s + 1, dispatched := st.dispatched ++ [v] }, .ok .undefined))
    ∧ (jsonParse p = none ∨ jsonParse p = some (.bool false) →
      onSocketData hashFn st (p ++ hashFn (p ++ DIGEST_KEY ++ natDecimal s))
        = ({ st with packetCounter := s }, .ok .undefined)) := by
  have hsplit : splitCommandAndHash (frameRaw (p ++ hashFn (p ++ DIGEST_KEY ++ natDecimal s)))
      = ⟨hashFn (p ++ DIGEST_KEY ++ natDecimal s), p⟩ := by
    rw [frameRaw_id _ hnonul htrim, splitCommandAndHash_append _ _ hlen]
  have hval := validate_accepts hashFn st p s hlen hle hlt hnc
  rw [splitCommandAndHash_append _ _ hlen] at hval
  constructor
  · intro v hv hvf
    unfold onSocketData getObjectFromRaw
    simp only [hsplit, hval, hv]
  · intro hcase
    unfold onSocketData getObjectFromRaw
    rcases hcase with hnone | hfalse
    · simp only [hsplit, hval, hnone]
    · simp only [hsplit, hval, hfalse]

/-- C2 counterexample: the frame whose payload is the five-character JSON text
`false`, carrying a digest that matches candidate 0 against a connection at
counter 0, has a payload that parses as JSON (to the value `false`) and a
valid digest, yet after the inbound path the connection's packetCounter is 0,
not 0 + 1, and nothing is dispatched: `getObjectFromRaw` returns the parsed
value `false` itself, which the data handler cannot distinguish from its
validation-failure marker `false`. -/
theorem claim2_counterexample_false_payload :
    jsonParse falsePayload = some (.bool false)
    ∧ validateClientCommandIntegrity testHash (clientAt 0) (splitCommandAndHash falseFrame)
        = (clientAt 0, .ok true)
    ∧ onSocketData testHash (clientAt 0) falseFrame = (clientAt 0, .ok .undefined)
    ∧ (onSocketData testHash (clientAt 0) falseFrame).1.packetCounter ≠ 0 + 1
    ∧ (onSocketData testHash (clientAt 0) falseFrame).1.dispatched = [] :=
  ⟨rfl, rfl, rfl, by decide, rfl⟩

/-- C2 (amended): after the inbound path fully processes an accepted packet
whose digest matched candidate sequence number `s` and whose payload parses as
JSON to a value other than the literal `false`, the connection's packetCounter
equals `s + 1` (the validator sets it to `s` and the data-event handler then
increments the same shared field before invoking handlers, delivering the
object); when JSON parsing fails after a valid digest — or parses to the value
`false`, which the handler cannot distinguish from a failure — the counter
remains `s` and nothing is dispatched. -/
theorem claim2_amended_counter_after_inbound (hashFn : Str → Str) (st : ClientState)
    (p : Str) (s : Nat)
    (hlen : (hashFn (p ++ DIGEST_KEY ++ natDecimal s)).length = 40)
    (hle : st.packetCounter ≤ s)
    (hlt : s < st.packetCounter + INC_PACKET_SEARCHBOUND)
    (hnc : ∀ k, st.packetCounter ≤ k → k < s →
      hashFn (p ++ DIGEST_KEY ++ natDecimal k) ≠ hashFn (p ++ DIGEST_KEY ++ natDecimal s))
    (hnonul : TERMINATING_CHARACTER ∉ p ++ hashFn (p ++ DIGEST_KEY ++ natDecimal s))
    (htrim : jsTrim (p ++ hashFn (p ++ DIGEST_KEY ++ natDecimal s)) ≠ []) :
    (∀ v, jsonParse p = some v → v ≠ .bool false →
      onSocketData hashFn st (p ++ hashFn (p ++ DIGEST_KEY ++ natDecimal s))
        = ({ st with packetCounter := s + 1, dispatched := st.dispatched ++ [v] }, .ok .undefined))
    ∧ (jsonParse p = none ∨ jsonParse p = some (.bool false) →
      onSocketData hashFn st (p ++ hashFn (p ++ DIGEST_KEY ++ natDecimal s))
        = ({ st with packetCounter := s }, .ok .undefined)) :=
  onSocketData_accepted hashFn st p s hlen hle hlt hnc hnonul htrim

/-- Witness for C2 (amended): the concrete frame with payload `true` accepted
at candidate 0 leaves the counter at 1 and dispatches the parsed value. -/
theorem claim2_amended_counter_after_inbound_witness :
    onSocketData testHash (clientAt 0)
      ("true".toList ++ testHash ("true".toList ++ DIGEST_KEY ++ natDecimal 0))
      = ({ clientAt 0 with packetCounter := 1, dispatched := [.bool true] }, .ok .undefined) :=
  (claim2_amended_counter_after_inbound testHash (clientAt 0) "true".toList 0
    (by decide) (by decide) (by decide)
    (by intro k _ hk; exact absurd hk (Nat.not_lt_zero k))
    (by decide) (by decide)).1 (.bool true) rfl (by simp)

/-- C8: for every inbound packet whose digest validates (the window search of
the validation loop finds a matching candidate for the framed packet) but
whose payload is not parseable JSON, the packet is dropped silently: the data
event returns normally, no handler is invoked (`dispatched` is unchanged), the
store — in particular the `destroyed` flag — is untouched, no socket call is
made, and only the sequence counter moves to the accepted candidate, so the
connection remains open for further traffic. -/
theorem claim8_unparseable_payload_dropped_silently (hashFn : Str → Str)
    (st : ClientState) (raw : Str) (j : Nat)
    (hmatch : searchFrom
      (fun i => candidateDigestMatches hashFn (splitCommandAndHash (frameRaw raw))
        (st.packetCounter + i)) 0 INC_PACKET_SEARCHBOUND = some j)
    (hparse : jsonParse (splitCommandAndHash (frameRaw raw)).data = none) :
    onSocketData hashFn st raw = ({ st with packetCounter := st.packetCounter + j }, .ok .undefined) := by
  unfold onSocketData getObjectFromRaw validateClientCommandIntegrity
  simp only [hmatch, hparse]

/-- Witness for C8: a frame with the non-JSON payload `nope` and a digest
matching candidate 0 is dropped with the counter advanced to 0 and the state
otherwise untouched. -/
theorem claim8_unparseable_payload_dropped_silently_witness :
    onSocketData testHash (clientAt 0)
      ("nope".toList ++ testHash ("nope".toList ++ DIGEST_KEY ++ natDecimal 0))
      = ({ clientAt 0 with packetCounter := 0 + 0 }, .ok .undefined) :=
  claim8_unparseable_payload_dropped_silently testHash (clientAt 0)
    ("nope".toList ++ testHash ("nope".toList ++ DIGEST_KEY ++ natDecimal 0)) 0
    rfl rfl

/-- C9 counterexample: the empty inbound buffer is replaced by the framer with
the literal placeholder of the source, which is `\x7b"command": "missingSocketDataString"\x7d`
with a space after the colon — not the claimed spaceless text
`\x7b"command":"missingSocketDataString"\x7d`; the two differ as strings, and the
digest check runs over the exact replaced bytes. -/
theorem claim9_counterexample_placeholder_text :
    frameRaw [] = missingSocketDataPlaceholder
    ∧ missingSocketDataPlaceholder
        ≠ "\x7b\"command\":\"missingSocketDataString\"\x7d".toList :=
  ⟨rfl, by decide⟩

/-- C9 (amended): for every raw buffer decoded as text, if the text contains
the NUL terminator then the logical packet is exactly the text before the
first NUL and everything after it is discarded; if no NUL is present the
entire text is the packet; and if the resulting text is empty or
whitespace-only it is replaced by the placeholder
`\x7b"command": "missingSocketDataString"\x7d` (with a space after the colon)
before digest splitting and validation. -/
theorem claim9_amended_framer (pre post raw : Str)
    (hpre : TERMINATING_CHARACTER ∉ pre) (hraw : TERMINATING_CHARACTER ∉ raw) :
    frameRaw (pre ++ TERMINATING_CHARACTER :: post)
      = (if jsTrim pre = [] then missingSocketDataPlaceholder else pre)
    ∧ frameRaw raw = (if jsTrim raw = [] then missingSocketDataPlaceholder else raw) := by
  constructor
  · unfold frameRaw
    rw [jsIndexOfChar_append _ pre post hpre]
    dsimp only
    rw [List.take_left]
  · unfold frameRaw
    rw [jsIndexOfChar_eq_none _ raw hraw]

/-- Witness for C9 (amended): the buffer `hi` followed by a NUL and trailing
garbage frames to `hi`; the whitespace-only buffer of one space frames to the
placeholder. -/
theorem claim9_amended_framer_witness :
    frameRaw ("hi".toList ++ TERMINATING_CHARACTER :: "junk".toList) = "hi".toList
    ∧ frameRaw [' '] = missingSocketDataPlaceholder :=
  claim9_amended_framer "hi".toList "junk".toList [' '] (by decide) (by decide)

/-- C5: on a connection whose `destroyed` store flag is truthy, `send` performs
no transport write whatever the arguments and whether tick mode is on or off
(in tick mode the command is only queued; outside tick mode the inner
`directSend` refuses), the value `send` returns is not truthy (its JS return
value is always `undefined`, as `send` has no return statement and discards
the result of `directSend`), and `directSend` itself is a no-op that reports
failure by returning `false`. -/
theorem claim5_send_after_destroy_no_write (header : Str) (st : ClientState)
    (command : JsVal) (dataArg : Option JsVal)
    (hd : truthy (clientGet st "destroyed") = true) :
    (send header st command dataArg).1.writes = st.writes
    ∧ truthy (send header st command dataArg).2 = false
    ∧ directSend header st command = (st, false) := by
  have hds : ∀ c, directSend header st c = (st, false) := by
    intro c
    unfold directSend
    rw [hd]
    rfl
  refine ⟨?_, ?_, hds command⟩
  · cases dataArg <;>
      · unfold send
        dsimp only
        split
        · split
          · split <;> rfl
          · rfl
        · rw [hds _]
  · cases dataArg <;>
      · unfold send
        dsimp only
        split
        · split
          · split <;> rfl
          · rfl
        · rfl

/-- Witness for C5: on a destroyed connection, sending a ping command writes
nothing, the call's return value is not truthy, and the direct-send path is a
no-op returning false. -/
theorem claim5_send_after_destroy_no_write_witness :
    (send "HD".toList destroyedClient (.obj [("command", .str "ping".toList)]) none).1.writes
      = destroyedClient.writes
    ∧ truthy (send "HD".toList destroyedClient (.obj [("command", .str "ping".toList)]) none).2
      = false
    ∧ directSend "HD".toList destroyedClient (.obj [("command", .str "ping".toList)])
      = (destroyedClient, false) :=
  claim5_send_after_destroy_no_write "HD".toList destroyedClient
    (.obj [("command", .str "ping".toList)]) none rfl

/- In tick mode, consecutive one-argument sends of non-batch commands only
   append to the queue, in call order. -/
theorem sendAll_tickMode_queues (header : Str) :
    ∀ (cmds : List JsVal) (st : ClientState), st.tickMode = true →
      (∀ c ∈ cmds, truthy (jsGetField c "batch") = false) →
      sendAll header st cmds = { st with tickModeQueue := st.tickModeQueue ++ cmds } := by
  intro cmds
  induction cmds with
  | nil =>
    intro st _ _
    simp [sendAll]
  | cons c cs ih =>
    intro st ht hb
    have hc : truthy (jsGetField c "batch") = false := hb c (List.mem_cons_self c cs)
    have hstep : (send header st c none).1 = { st with tickModeQueue := st.tickModeQueue ++ [c] } := by
      unfold send
      dsimp only
      rw [ht, hc]
      rfl
    show sendAll header (send header st c none).1 cs = _
    rw [hstep, ih { st with tickModeQueue := st.tickModeQueue ++ [c] } ht
      (fun x hx => hb x (List.mem_cons_of_mem c hx))]
    simp

/-- C6: on a non-destroyed connection with tick mode enabled and an empty
queue, any non-empty sequence of consecutive one-argument `send` calls of
non-batch commands produces no transport write and queues the commands in
call order; the following `tick()` produces exactly one transport write,
whose frame is the direct-send framing of the single batch object
`\x7bbatch: true, commands: <the N commands in call order>\x7d`, and leaves
the queue empty; a subsequent `tick()` with the queue still empty returns
normally and produces zero writes. -/
theorem claim6_tick_flushes_batch (header : Str) (st : ClientState) (cmds : List JsVal)
    (ht : st.tickMode = true) (hq : st.tickModeQueue = []) (hne : cmds ≠ [])
    (hb : ∀ c ∈ cmds, truthy (jsGetField c "batch") = false)
    (hd : truthy (clientGet st "destroyed") = false) :
    (sendAll header st cmds).writes = st.writes
    ∧ (sendAll header st cmds).tickModeQueue = cmds
    ∧ (tick header (sendAll header st cmds)).1.writes
        = st.writes ++ [header ++ jsReplaceFirst
            (jsonStringify (.obj [("batch", .bool true), ("commands", .arr cmds)])) header]
    ∧ (tick header (sendAll header st cmds)).1.tickModeQueue = []
    ∧ (tick header (sendAll header st cmds)).2 = .ok .undefined
    ∧ (tick header (tick header (sendAll header st cmds)).1).1.writes
        = (tick header (sendAll header st cmds)).1.writes
    ∧ (tick header (tick header (sendAll header st cmds)).1).2 = .ok .undefined := by
  have hall := sendAll_tickMode_queues header cmds st ht hb
  rw [hq] at hall
  simp only [List.nil_append] at hall
  have hlen0 : (cmds.length != 0) = true := by
    cases cmds with
    | nil => exact absurd rfl hne
    | cons x xs => simp
  have htick1 : tick header (sendAll header st cmds)
      = ({ st with
            tickModeQueue := ([] : List JsVal)
            writes := st.writes ++ [header ++ jsReplaceFirst
              (jsonStringify (.obj [("batch", .bool true), ("commands", .arr cmds)])) header] },
         .ok .undefined) := by
    rw [hall]
    unfold tick
    simp only [ht, Bool.not_true, Bool.false_eq_true, if_false, hlen0, if_true]
    unfold directSend clientGet
    unfold clientGet at hd
    dsimp only
    rw [hd]
    rfl
  have htick2 : tick header (tick header (sendAll header st cmds)).1
      = ((tick header (sendAll header st cmds)).1, .ok .undefined) := by
    rw [htick1]
    unfold tick
    simp only [ht, Bool.not_true, Bool.false_eq_true, if_false]
    rfl
  refine ⟨by rw [hall], by rw [hall], by rw [htick1], by rw [htick1], by rw [htick1],
    by rw [htick2], by rw [htick2]⟩

/-- Witness for C6: two queued pings on a fresh tick-mode connection are
flushed by one tick as a single two-command batch frame, and a second tick
writes nothing. -/
theorem claim6_tick_flushes_batch_witness :
    (sendAll "HD".toList tickClient
        [.obj [("command", .str "a".toList)], .obj [("command", .str "b".toList)]]).writes = tickClient.writes
    ∧ (sendAll "HD".toList tickClient
        [.obj [("command", .str "a".toList)], .obj [("command", .str "b".toList)]]).tickModeQueue
        = [.obj [("command", .str "a".toList)], .obj [("command", .str "b".toList)]]
    ∧ (tick "HD".toList (sendAll "HD".toList tickClient
        [.obj [("command", .str "a".toList)], .obj [("command", .str "b".toList)]])).1.writes
        = tickClient.writes ++ ["HD".toList ++ jsReplaceFirst
            (jsonStringify (.obj [("batch", .bool true), ("commands", .arr
              [.obj [("command", .str "a".toList)], .obj [("command", .str "b".toList)]])])) "HD".toList]
    ∧ (tick "HD".toList (sendAll "HD".toList tickClient
        [.obj [("command", .str "a".toList)], .obj [("command", .str "b".toList)]])).1.tickModeQueue = []
    ∧ (tick "HD".toList (sendAll "HD".toList tickClient
        [.obj [("command", .str "a".toList)], .obj [("command", .str "b".toList)]])).2 = .ok .undefined
    ∧ (tick "HD".toList (tick "HD".toList (sendAll "HD".toList tickClient
        [.obj [("command", .str "a".toList)], .obj [("command", .str "b".toList)]])).1).1.writes
        = (tick "HD".toList (sendAll "HD".toList tickClient
        [.obj [("command", .str "a".toList)], .obj [("command", .str "b".toList)]])).1.writes
    ∧ (tick "HD".toList (tick "HD".toList (sendAll "HD".toList tickClient
        [.obj [("command", .str "a".toList)], .obj [("command", .str "b".toList)]])).1).2 = .ok .undefined :=
  claim6_tick_flushes_batch "HD".toList tickClient
    [.obj [("command", .str "a".toList)], .obj [("command", .str "b".toList)]]
    rfl rfl (by simp)
    (by
      intro c hc
      simp only [List.mem_cons, List.not_mem_nil, or_false] at hc
      rcases hc with h | h <;> (subst h; rfl))
    rfl

/-- C7 counterexample: with header `XY` and the command whose serialization is
`\x7b"command":"XYXY"\x7d` (containing the header twice), the emitted frame is
`XY\x7b"command":"XY"\x7d`: only the first embedded occurrence is removed by
`replace`, the body after the leading header still contains the header, and
the frame differs from the one the claim predicts (all occurrences
stripped, which would give `XY\x7b"command":""\x7d`). -/
theorem claim7_counterexample_double_header :
    (directSend xyHeader (clientAt 0) xyCommand).1.writes
      = ["XY\x7b\"command\":\"XY\"\x7d".toList]
    ∧ containsSub ("XY\x7b\"command\":\"XY\"\x7d".toList.drop xyHeader.length) xyHeader = true
    ∧ (directSend xyHeader (clientAt 0) xyCommand).1.writes
      ≠ ["XY\x7b\"command\":\"\"\x7d".toList] :=
  ⟨rfl, rfl, by decide⟩

/- An occurrence reported by `firstOccurrenceAux` is a real occurrence: the
   string decomposes around it. -/
theorem firstOccurrenceAux_decomp (pat : Str) :
    ∀ (s : Str) (i : Nat), firstOccurrenceAux pat s = some i →
      s = s.take i ++ pat ++ s.drop (i + pat.length) := by
  intro s
  induction s with
  | nil =>
    intro i h
    unfold firstOccurrenceAux at h
    by_cases hp : pat.isEmpty = true
    · simp only [hp, if_true, Option.some.injEq] at h
      subst h
      rw [List.isEmpty_iff] at hp
      subst hp
      rfl
    · rw [if_neg hp] at h
      exact Option.noConfusion h
  | cons c rest ih =>
    intro i h
    unfold firstOccurrenceAux at h
    by_cases hp : pat.isPrefixOf (c :: rest) = true
    · simp only [hp, if_true, Option.some.injEq] at h
      subst h
      rcases List.isPrefixOf_iff_prefix.mp hp with ⟨t, ht⟩
      conv_lhs => rw [← ht]
      rw [List.take_zero, Nat.zero_add, ← ht, List.nil_append, List.drop_left]
    · simp only [hp, Bool.false_eq_true, if_false, Option.map_eq_some'] at h
      rcases h with ⟨j, hj, hij⟩
      subst hij
      have hrest := ih j hj
      calc c :: rest
          = c :: (rest.take j ++ pat ++ rest.drop (j + pat.length)) := by rw [← hrest]
        _ = (c :: rest).take (j + 1) ++ pat ++ (c :: rest).drop (j + 1 + pat.length) := by
            rw [List.take_succ_cons, Nat.add_right_comm j 1 pat.length, List.drop_succ_cons,
              List.cons_append, List.cons_append]

/-- C7 (amended): for every command object and configured header, the emitted
outbound frame equals the header prepended to the command's JSON serialization
from which the FIRST literal occurrence of the header (if any) has been
removed — `String.prototype.replace` with a string pattern replaces only the
first occurrence, so further occurrences may remain in the body.  The frame
always begins with the header; when the serialization contains no occurrence
it is emitted unchanged; when it contains one, the serialization decomposes
around the removed occurrence. -/
theorem claim7_amended_first_occurrence_stripped (header : Str) (st : ClientState)
    (command : JsVal) (hd : truthy (clientGet st "destroyed") = false) :
    (directSend header st command).1.writes
      = st.writes ++ [header ++ jsReplaceFirst (jsonStringify command) header]
    ∧ header.isPrefixOf (header ++ jsReplaceFirst (jsonStringify command) header) = true
    ∧ (containsSub (jsonStringify command) header = false →
        jsReplaceFirst (jsonStringify command) header = jsonStringify command)
    ∧ (containsSub (jsonStringify command) header = true →
        jsonStringify command
          = (jsonStringify command).take ((firstOccurrenceAux header (jsonStringify command)).getD 0)
            ++ header
            ++ (jsonStringify command).drop
              ((firstOccurrenceAux header (jsonStringify command)).getD 0 + header.length)
        ∧ jsReplaceFirst (jsonStringify command) header
          = (jsonStringify command).take ((firstOccurrenceAux header (jsonStringify command)).getD 0)
            ++ (jsonStringify command).drop
              ((firstOccurrenceAux header (jsonStringify command)).getD 0 + header.length)) := by
  refine ⟨?_, ?_, ?_, ?_⟩
  · unfold directSend
    rw [hd]
    rfl
  · exact List.isPrefixOf_iff_prefix.mpr (List.prefix_append header _)
  · intro hno
    unfold containsSub at hno
    unfold jsReplaceFirst
    rcases hocc : firstOccurrenceAux header (jsonStringify command) with _ | i
    · rfl
    · rw [hocc] at hno
      exact Bool.noConfusion hno
  · intro hyes
    unfold containsSub at hyes
    rcases hocc : firstOccurrenceAux header (jsonStringify command) with _ | i
    · rw [hocc] at hyes
      exact Bool.noConfusion hyes
    · constructor
      · exact firstOccurrenceAux_decomp header (jsonStringify command) i hocc
      · unfold jsReplaceFirst
        rw [hocc]
        rfl

/-- Witness for C7 (amended): with header `HD` and the single-occurrence
command `\x7b"command":"aHDb"\x7d`, the frame is the header followed by the
serialization with that one occurrence removed, and the decomposition facts
hold at the occurrence index. -/
theorem claim7_amended_first_occurrence_stripped_witness :
    (directSend "HD".toList (clientAt 0) (.obj [("command", .str "aHDb".toList)])).1.writes
      = (clientAt 0).writes ++ ["HD".toList
          ++ jsReplaceFirst (jsonStringify (.obj [("command", .str "aHDb".toList)])) "HD".toList]
    ∧ ("HD".toList).isPrefixOf ("HD".toList
          ++ jsReplaceFirst (jsonStringify (.obj [("command", .str "aHDb".toList)])) "HD".toList) = true
    ∧ (containsSub (jsonStringify (.obj [("command", .str "aHDb".toList)])) "HD".toList = false →
        jsReplaceFirst (jsonStringify (.obj [("command", .str "aHDb".toList)])) "HD".toList
          = jsonStringify (.obj [("command", .str "aHDb".toList)]))
    ∧ (containsSub (jsonStringify (.obj [("command", .str "aHDb".toList)])) "HD".toList = true →
        jsonStringify (.obj [("command", .str "aHDb".toList)])
          = (jsonStringify (.obj [("command", .str "aHDb".toList)])).take
              ((firstOccurrenceAux "HD".toList (jsonStringify (.obj [("command", .str "aHDb".toList)]))).getD 0)
            ++ "HD".toList
            ++ (jsonStringify (.obj [("command", .str "aHDb".toList)])).drop
              ((firstOccurrenceAux "HD".toList (jsonStringify (.obj [("command", .str "aHDb".toList)]))).getD 0
                + "HD".toList.length)
        ∧ jsReplaceFirst (jsonStringify (.obj [("command", .str "aHDb".toList)])) "HD".toList
          = (jsonStringify (.obj [("command", .str "aHDb".toList)])).take
              ((firstOccurrenceAux "HD".toList (jsonStringify (.obj [("command", .str "aHDb".toList)]))).getD 0)
            ++ (jsonStringify (.obj [("command", .str "aHDb".toList)])).drop
              ((firstOccurrenceAux "HD".toList (jsonStringify (.obj [("command", .str "aHDb".toList)]))).getD 0
                + "HD".toList.length)) :=
  claim7_amended_first_occurrence_stripped "HD".toList (clientAt 0)
    (.obj [("command", .str "aHDb".toList)]) rfl

/- The inbound data event never decreases the counter: the validator only ever
   sets it to `packetCounter + i` for a search offset `i ≥ 0`, and the handler
   then at most increments it. -/
theorem onSocketData_counter_mono (hashFn : Str → Str) (st : ClientState) (raw : Str) :
    st.packetCounter ≤ (onSocketData hashFn st raw).1.packetCounter := by
  unfold onSocketData getObjectFromRaw validateClientCommandIntegrity destroy
  rcases hsf : searchFrom
      (fun i => candidateDigestMatches hashFn (splitCommandAndHash (frameRaw raw))
        (st.packetCounter + i)) 0 INC_PACKET_SEARCHBOUND with _ | i
  · simp only [hsf]
    by_cases hdest : truthy (clientGet st "destroyed") = true
    · rw [if_pos hdest]
    · rw [if_neg hdest]
      exact Nat.le_refl st.packetCounter
  · simp only [hsf]
    rcases hp : jsonParse (splitCommandAndHash (frameRaw raw)).data with _ | v
    · simp only [hp]
      show st.packetCounter ≤ st.packetCounter + i
      omega
    · simp only [hp]
      rcases v with _ | _ | b | n | cs | xs | fs
      · show st.packetCounter ≤ st.packetCounter + i + 1
        omega
      · show st.packetCounter ≤ st.packetCounter + i + 1
        omega
      · rcases b with _ | _
        · show st.packetCounter ≤ st.packetCounter + i
          omega
        · show st.packetCounter ≤ st.packetCounter + i + 1
          omega
      · show st.packetCounter ≤ st.packetCounter + i + 1
        omega
      · show st.packetCounter ≤ st.packetCounter + i + 1
        omega
      · show st.packetCounter ≤ st.packetCounter + i + 1
        omega
      · show st.packetCounter ≤ st.packetCounter + i + 1
        omega

/-- C10: the sequence counter is a natural number that starts at 0 (the
constructor initialises `packetCounter := 0` and the greeting send does not
touch it) and is monotonically non-decreasing: the inbound data event never
decreases it (on acceptance it moves forward to `packetCounter + i` with
`i ≥ 0` and is then at most incremented), and `send`, `tick`, `destroy` and
`directSend` leave it unchanged on every path. -/
theorem claim10_counter_starts_at_zero_and_never_decreases (hashFn : Str → Str)
    (header : Str) (st : ClientState) (raw : Str) (command : JsVal)
    (dataArg : Option JsVal) :
    (initialClient header).packetCounter = 0
    ∧ st.packetCounter ≤ (onSocketData hashFn st raw).1.packetCounter
    ∧ (send header st command dataArg).1.packetCounter = st.packetCounter
    ∧ (tick header st).1.packetCounter = st.packetCounter
    ∧ (destroy st).1.packetCounter = st.packetCounter
    ∧ (directSend header st command).1.packetCounter = st.packetCounter := by
  refine ⟨rfl, onSocketData_counter_mono hashFn st raw, ?_, ?_, ?_, ?_⟩
  · unfold send
    cases dataArg <;>
      · dsimp only
        split
        · split
          · split <;> rfl
          · rfl
        · unfold directSend
          split <;> rfl
  · unfold tick
    split
    · rfl
    · split
      · unfold directSend
        split <;> rfl
      · rfl
  · unfold destroy
    split <;> rfl
  · unfold directSend
    split <;> rfl
